import Mathlib

/-!
Verification development for the `whatsapp-bot-collector` repository.

The file shallowly embeds the parts of the JavaScript source that the
checked properties are about:

* `StatusManager` (src/unnamed/part_000) — the capture-and-dedup pipeline:
  registry state `{enabled, viewedStatuses}`, `viewAndSaveStatus`,
  `extractStatusContent`, `setEnabled`/`toggle`.
* `Commands.pushContact` (src/src/commands/index.js, lines 371–493) — the
  batched rate-limited broadcast dispatcher.
* `Commands.toggleStatus` and the `.status` command case of
  `WhatsAppBot.handleCommand` (src/src/bot.js, lines 263–266).
* `ContactStorage.addContact` (src/src/storage/contacts.js, lines 66–87).

External I/O (network sends, acknowledgements, file writes, timed waits)
is modelled by emitting explicit effect records / trace events; the random
per-message jitter and per-recipient send outcomes are modelled by oracle
functions passed as parameters.
-/

namespace WABot

/-! ## A small model of JavaScript values

`extractStatusContent` inspects an arbitrary message payload with JS
truthiness checks, `Object.keys`, and dynamic field access, so we embed
payloads as a generic JS value tree.  An object is an association list of
fields in insertion order (JS objects cannot contain a duplicate key).
-/

inductive JsValue where
  | undefv : JsValue
  | nullv : JsValue
  | boolv : Bool → JsValue
  | num : Int → JsValue
  | str : String → JsValue
  | obj : List (String × JsValue) → JsValue

/-- JS truthiness: `undefined`, `null`, `false`, `0` and `""` are falsy;
every object is truthy. -/
def truthy : JsValue → Bool
  | .undefv => false
  | .nullv => false
  | .boolv b => b
  | .num n => n != 0
  | .str s => s != ""
  | .obj _ => true

/-- Is the value an object (`typeof v === 'object'` for a non-null value)?
JS `typeof null` is also `'object'`, but every use below is guarded by a
truthiness check that excludes `null`. -/
def isObj : JsValue → Bool
  | .obj _ => true
  | _ => false

/-- Field access `v.k` on a non-nullish base: found object field, or
`undefined`.  (JS property access on a primitive base yields `undefined`
for the field names used here; on `null`/`undefined` it throws, which the
callers in the source rule out before calling the classifier.) -/
def jsGet : JsValue → String → JsValue
  | .obj fields, k =>
    match fields.find? (fun p => p.1 == k) with
    | some p => p.2
    | none => .undefv
  | _, _ => .undefv

/-- JS `a || b`. -/
def jsOr (a b : JsValue) : JsValue := if truthy a then a else b

/-- Models `Object.keys` (insertion order) for an object; `[]` otherwise. -/
def jsKeys : JsValue → List String
  | .obj fields => fields.map Prod.fst
  | _ => []

/-- String interpolation of a JS value (used for `${fileName}`). -/
def jsToString : JsValue → String
  | .undefv => "undefined"
  | .nullv => "null"
  | .boolv b => if b then "true" else "false"
  | .num n => toString n
  | .str s => s
  | .obj _ => "[object Object]"

/-! ## ContentClassifier: `StatusManager.extractStatusContent`

Direct transcription of src/unnamed/part_000 lines 207–289.  The returned
record carries the `type` tag, the `content` value and, for image/video,
the `caption` value exactly as the source builds them. -/

structure StatusContent where
  type : String
  content : JsValue
  caption : Option JsValue := none

/-- Transcribes `StatusManager.extractStatusContent(statusMessage)` applied to the
`statusMessage.message` payload (part_000 lines 207–289). -/
def extractStatusContent (message : JsValue) : StatusContent :=
  if truthy (jsGet message "conversation") then
    { type := "text", content := jsGet message "conversation" }
  else if truthy (jsGet message "extendedTextMessage") then
    { type := "text", content := jsGet (jsGet message "extendedTextMessage") "text" }
  else if truthy (jsGet message "imageMessage") then
    { type := "image"
      caption := some (jsOr (jsGet (jsGet message "imageMessage") "caption") (.str ""))
      content := jsOr (jsGet (jsGet message "imageMessage") "caption") (.str "Image status") }
  else if truthy (jsGet message "videoMessage") then
    { type := "video"
      caption := some (jsOr (jsGet (jsGet message "videoMessage") "caption") (.str ""))
      content := jsOr (jsGet (jsGet message "videoMessage") "caption") (.str "Video status") }
  else if truthy (jsGet message "audioMessage") then
    { type := "audio", content := .str "Audio status" }
  else if truthy (jsGet message "documentMessage") then
    { type := "document"
      content := .str ("Document: " ++
        jsToString (jsOr (jsGet (jsGet message "documentMessage") "fileName")
          (.str "Unknown file"))) }
  else if truthy (jsGet message "stickerMessage") then
    { type := "sticker", content := .str "Sticker status" }
  else if truthy (jsGet message "locationMessage") then
    { type := "location", content := .str "Location status" }
  else
    match jsKeys message with
    | [] => { type := "text", content := .str "Status update" }
    | firstType :: _ =>
      let firstMessage := jsGet message firstType
      -- `firstMessage && typeof firstMessage === 'object'`: the truthiness
      -- guard excludes null, so the conjunction is exactly `isObj`.
      if isObj firstMessage then
        if truthy (jsGet firstMessage "text") then
          { type := "text", content := jsGet firstMessage "text" }
        else if truthy (jsGet firstMessage "caption") then
          { type := "media", content := jsGet firstMessage "caption" }
        else
          { type := "text", content := .str "Status update" }
      else
        { type := "text", content := .str "Status update" }

/-- A payload matches one of the known content shapes when one of the eight
explicit field checks of `extractStatusContent` fires (part_000 lines
211–265). -/
def knownShape (message : JsValue) : Bool :=
  truthy (jsGet message "conversation") ||
  truthy (jsGet message "extendedTextMessage") ||
  truthy (jsGet message "imageMessage") ||
  truthy (jsGet message "videoMessage") ||
  truthy (jsGet message "audioMessage") ||
  truthy (jsGet message "documentMessage") ||
  truthy (jsGet message "stickerMessage") ||
  truthy (jsGet message "locationMessage")

/-! ## CaptureEngine: `StatusManager` (src/unnamed/part_000)

The persisted registry is `{enabled, viewedStatuses}` (a JS `Set` of status
ids, modelled as a duplicate-free insertion-ordered list).  The external
actions performed by `viewAndSaveStatus` are recorded in an effect record:

* `acks`            — calls to `markStatusAsViewed` (`sock.readMessages`);
* `registryWrites`  — calls to `saveViewedStatuses` (registry file write);
* `archiveAttempts` — calls to `saveStatusToFile` (archive entry write);
* `forwards`        — calls to `sendToSelf` (forwarded summary).

`getSenderInfo` is a read-only lookup and is not an effect. -/

structure MessageKey where
  id : String
  participant : Option String := none
  fromMe : Bool := false
  remoteJid : String := ""
deriving DecidableEq, Repr

structure StatusMessage where
  key : MessageKey
  message : JsValue := .obj []

structure RegistryState where
  enabled : Bool
  viewedStatuses : List String
deriving DecidableEq, Repr

structure CaptureEffects where
  acks : Nat
  registryWrites : Nat
  archiveAttempts : Nat
  forwards : Nat
deriving DecidableEq, Repr

/-- No external action performed. -/
def CaptureEffects.none : CaptureEffects :=
  { acks := 0, registryWrites := 0, archiveAttempts := 0, forwards := 0 }

/-- Models `Set.add` on the viewed-status set: a JS `Set` ignores an element that
is already present and appends a fresh one in insertion order. -/
def setAdd (s : List String) (x : String) : List String :=
  if s.contains x then s else s ++ [x]

/-- Transcribes `StatusManager.viewAndSaveStatus(sock, statusMessage)` (part_000 lines
41–85), returning the updated registry and the effects performed:

* line 42: `if (!this.enabled) return;`
* lines 49–51: early return when `viewedStatuses.has(statusId)`;
* line 54: `markStatusAsViewed` (one acknowledgement; its own failure is
  caught internally and does not stop the pipeline);
* lines 57–58: add the id and persist the registry;
* line 65: `saveStatusToFile` (one archive attempt);
* line 68: `sendToSelf` (one forwarded summary). -/
def viewAndSaveStatus (st : RegistryState) (statusMessage : StatusMessage) :
    RegistryState × CaptureEffects :=
  if !st.enabled then (st, CaptureEffects.none)
  else
    let statusId := statusMessage.key.id
    if st.viewedStatuses.contains statusId then (st, CaptureEffects.none)
    else
      ({ st with viewedStatuses := setAdd st.viewedStatuses statusId },
       { acks := 1, registryWrites := 1, archiveAttempts := 1, forwards := 1 })

/-- Transcribes `StatusManager.setEnabled(enabled)` (part_000 lines 336–339): sets the
flag and writes the registry file once. -/
def setEnabled (st : RegistryState) (enabled : Bool) : RegistryState × Nat :=
  ({ st with enabled := enabled }, 1)

/-- Transcribes `StatusManager.toggle()` (part_000 lines 341–345): flips the flag and
writes the registry file once. -/
def toggleRegistry (st : RegistryState) : RegistryState × Nat :=
  ({ st with enabled := !st.enabled }, 1)

/-! ## The `.status` command path

`WhatsAppBot` keeps two distinct pieces of persisted state: the bot
settings `{autoStatusView}` (bot.js lines 18–21, persisted to
`data/settings.json` by `saveSettings`) and the `StatusManager` registry
`{enabled, viewedStatuses}` (persisted to `data/viewed_statuses.json`).
The `.status` case of `handleCommand` (bot.js lines 263–266) calls
`Commands.toggleStatus(this.settings)` and then `this.saveSettings()`. -/

structure BotSettings where
  autoStatusView : Bool
deriving DecidableEq, Repr

structure BotState where
  settings : BotSettings
  registry : RegistryState
deriving DecidableEq, Repr

/-- Persistence effects of a command: how many times each store is written. -/
structure PersistEffects where
  settingsWrites : Nat
  registryWrites : Nat
deriving DecidableEq, Repr

/-- Transcribes `Commands.toggleStatus(settings)` (commands/index.js lines 362–368):
flips `settings.autoStatusView` in place (the returned confirmation text is
irrelevant to state). -/
def toggleStatus (settings : BotSettings) : BotSettings :=
  { settings with autoStatusView := !settings.autoStatusView }

/-- The `.status` case of `WhatsAppBot.handleCommand` (bot.js lines
263–266): `toggleStatus(this.settings)` followed by `saveSettings()`.  It
never touches `this.status` (the `StatusManager` registry). -/
def dotStatusCommand (b : BotState) : BotState × PersistEffects :=
  ({ b with settings := toggleStatus b.settings },
   { settingsWrites := 1, registryWrites := 0 })

/-- A concrete bot state with capture fully enabled and one seen id. -/
def sampleBotState : BotState :=
  { settings := { autoStatusView := true }
    registry := { enabled := true, viewedStatuses := ["id1"] } }

/-! ## ContactStorage (src/src/storage/contacts.js)

Contacts are JS objects; every caller of `addContact` passes a `number`
field plus a subset of `{name, addedDate, source, groupId}` (bot.js line
218, commands/index.js line 162), so a contact is modelled as a record with
a mandatory number and optional remaining fields (`none` = key absent). -/

structure ContactData where
  number : String
  name : Option String := none
  addedDate : Option String := none
  source : Option String := none
  groupId : Option String := none
deriving DecidableEq, Repr

/-- JS object spread `{...existing, ...contactData}`: a key present in
`contactData` overrides the existing value; an absent key keeps it. -/
def mergeContact (existing cd : ContactData) : ContactData :=
  { number := cd.number
    name := cd.name.orElse (fun _ => existing.name)
    addedDate := cd.addedDate.orElse (fun _ => existing.addedDate)
    source := cd.source.orElse (fun _ => existing.source)
    groupId := cd.groupId.orElse (fun _ => existing.groupId) }

/-- Transcribes `ContactStorage.addContact(contactData)` (contacts.js lines 66–87):
`findIndex(c => c.number === contactData.number)`, then either update in
place with a spread merge or push.  (The trailing `save()` always runs; it
does not change the in-memory list.) -/
def addContact (contacts : List ContactData) (cd : ContactData) : List ContactData :=
  match contacts.findIdx? (fun c => c.number == cd.number) with
  | some i =>
    match contacts[i]? with
    | some existing => contacts.set i (mergeContact existing cd)
    | none => contacts
  | none => contacts ++ [cd]

/-- Transcribes `ContactStorage.exists(number)` (contacts.js lines 89–91). -/
def contactExists (contacts : List ContactData) (number : String) : Bool :=
  contacts.any (fun c => c.number == number)

/-! ## DispatchScheduler: `Commands.pushContact`
(src/src/commands/index.js lines 371–493)

The dispatch loop is embedded as a pure trace-producing function.

* `sendOk i` — outcome of the single send attempt to the recipient at
  (0-indexed) position `i` of the truncated list (`sock.sendMessage`
  succeeding or throwing, line 432);
* `rnd i` — the value of `Math.floor(Math.random() * 3000)` drawn for the
  jitter delay after attempt `i` (line 438), so the delay slept is
  `5000 + rnd i` milliseconds and `rnd i < 3000`.

Trace events record, in program order: each send attempt with its outcome,
each per-message jitter wait (milliseconds), each end-of-batch progress
report (line 450), and each inter-batch wait (minutes, line 465). -/

inductive DispatchEvent where
  | sendAttempt : String → Bool → DispatchEvent
  | jitterWait : Nat → DispatchEvent
  | batchReport : Nat → DispatchEvent
  | batchWait : Nat → DispatchEvent
deriving DecidableEq, Repr

/-- Inner loop over one batch (lines 429–447).  `idx` is the global index
of the batch's first element in the truncated list.  Returns the events in
order together with the batch success and failure counts.  A successful
send that is not the last of its batch (line 437: `i <
batchParticipants.length - 1`) is followed by a jitter wait; a failed send
is caught (lines 442–446) and the loop proceeds immediately. -/
def runBatch (sendOk : Nat → Bool) (rnd : Nat → Nat) :
    List String → Nat → List DispatchEvent × Nat × Nat
  | [], _ => ([], 0, 0)
  | r :: rest, idx =>
    let tail := runBatch sendOk rnd rest (idx + 1)
    if sendOk idx then
      (DispatchEvent.sendAttempt r true ::
        ((if rest.isEmpty then [] else [DispatchEvent.jitterWait (5000 + rnd idx)]) ++
          tail.1),
       tail.2.1 + 1, tail.2.2)
    else
      (DispatchEvent.sendAttempt r false :: tail.1, tail.2.1, tail.2.2 + 1)

/-- Outer loop over batches (lines 420–470).  `batchNum` is the current
0-indexed batch, `remaining` the number of batches still to run (so the
condition `batchNum < totalBatches - 1` of lines 458 and 464 is
`remaining ≠ 0` after the current batch).  Each batch is the slice
`allParticipants.slice(batchStart, batchEnd)` with
`batchStart = batchNum * batchSize` and
`batchEnd = min (batchStart + batchSize) allParticipants.length`;
after it, a progress report, then — when more batches remain — an
inter-batch wait of `batchNum + 2` minutes (line 465). -/
def runBatches (batchSize : Nat) (participants : List String)
    (sendOk : Nat → Bool) (rnd : Nat → Nat) :
    Nat → Nat → List DispatchEvent × Nat × Nat
  | _, 0 => ([], 0, 0)
  | batchNum, remaining + 1 =>
    let batchStart := batchNum * batchSize
    let batchEnd := min (batchStart + batchSize) participants.length
    let batch := (participants.drop batchStart).take (batchEnd - batchStart)
    let b := runBatch sendOk rnd batch batchStart
    let rest := runBatches batchSize participants sendOk rnd (batchNum + 1) remaining
    (b.1 ++ DispatchEvent.batchReport batchNum ::
       ((if remaining == 0 then [] else [DispatchEvent.batchWait (batchNum + 2)]) ++
         rest.1),
     b.2.1 + rest.2.1, b.2.2 + rest.2.2)

structure PushResult where
  trace : List DispatchEvent
  totalSuccess : Nat
  totalFailure : Nat
  totalToProcess : Nat
  totalBatches : Nat
deriving DecidableEq, Repr

/-- The dispatch core of `Commands.pushContact` (lines 394–470):
`maxTotalParticipants = 50`, `batchSize = 10`,
`totalToProcess = Math.min(allParticipants.length, 50)`,
`totalBatches = Math.ceil(totalToProcess / batchSize)`, truncation
`allParticipants.slice(0, totalToProcess)` before the batch loop. -/
def pushContactDispatch (allParticipants : List String)
    (sendOk : Nat → Bool) (rnd : Nat → Nat) : PushResult :=
  let maxTotalParticipants := 50
  let batchSize := 10
  let totalToProcess := min allParticipants.length maxTotalParticipants
  let totalBatches := (totalToProcess + batchSize - 1) / batchSize
  let truncated := allParticipants.take totalToProcess
  let r := runBatches batchSize truncated sendOk rnd 0 totalBatches
  { trace := r.1
    totalSuccess := r.2.1
    totalFailure := r.2.2
    totalToProcess := totalToProcess
    totalBatches := totalBatches }

/-- Models JS `s.endsWith(t)` as a suffix test on the character sequences
(extensionally the same as `String.endsWith`, but reducible by the
kernel). -/
def strEndsWith (s t : String) : Bool :=
  decide (t.data.length ≤ s.data.length) &&
    (s.data.drop (s.data.length - t.data.length) == t.data)

/-- Participant filter of `pushContact` (lines 386–388):
`participants.filter(p => p.id.endsWith('.net') || p.id.endsWith('@lid'))
.map(p => p.id)`, with a participant record modelled by its id. -/
def filterParticipants (participants : List String) : List String :=
  participants.filter (fun p => strEndsWith p ".net" || strEndsWith p "@lid")

/-- The recipients of the send attempts of a trace, in order. -/
def attemptedRecipients (trace : List DispatchEvent) : List String :=
  trace.filterMap (fun e =>
    match e with
    | .sendAttempt r _ => some r
    | _ => none)

/-- The inter-batch waits (in minutes) of a trace, in order. -/
def batchWaits (trace : List DispatchEvent) : List Nat :=
  trace.filterMap (fun e =>
    match e with
    | .batchWait m => some m
    | _ => none)

/-- The per-message jitter delays (in milliseconds) of a trace, in order. -/
def jitterDelays (trace : List DispatchEvent) : List Nat :=
  trace.filterMap (fun e =>
    match e with
    | .jitterWait d => some d
    | _ => none)

/-- The number of end-of-batch progress reports in a trace. -/
def batchReportCount (trace : List DispatchEvent) : Nat :=
  (trace.filterMap (fun e =>
    match e with
    | .batchReport b => some b
    | _ => none)).length

/-- The send attempts and jitter waits of a trace, in order, with the
progress reports and inter-batch waits removed. -/
def sendJitterEvents (trace : List DispatchEvent) : List DispatchEvent :=
  trace.filter (fun e =>
    match e with
    | .sendAttempt _ _ => true
    | .jitterWait _ => true
    | _ => false)

/-- Stated from the claim's words, independently of `runBatch`: the
prescribed send/jitter sequence of one batch whose recipients start at
global index `idx` — one send attempt per recipient in batch order;
immediately after a successful attempt that is not the last of its batch,
exactly one jitter wait of `5000 + rnd idx` milliseconds; no wait after a
failed attempt and no wait after the batch's last attempt. -/
def specBatchEvents (sendOk : Nat → Bool) (rnd : Nat → Nat) :
    List String → Nat → List DispatchEvent
  | [], _ => []
  | [r], idx => [DispatchEvent.sendAttempt r (sendOk idx)]
  | r :: r₂ :: rest, idx =>
    DispatchEvent.sendAttempt r (sendOk idx) ::
      ((if sendOk idx then [DispatchEvent.jitterWait (5000 + rnd idx)] else []) ++
        specBatchEvents sendOk rnd (r₂ :: rest) (idx + 1))

/-! ### Trace projection lemmas -/

@[simp] lemma attemptedRecipients_nil : attemptedRecipients [] = [] := rfl

@[simp] lemma attemptedRecipients_cons_send (r : String) (ok : Bool) (t : List DispatchEvent) :
    attemptedRecipients (DispatchEvent.sendAttempt r ok :: t) = r :: attemptedRecipients t := rfl

@[simp] lemma attemptedRecipients_cons_jitter (d : Nat) (t : List DispatchEvent) :
    attemptedRecipients (DispatchEvent.jitterWait d :: t) = attemptedRecipients t := rfl

@[simp] lemma attemptedRecipients_cons_report (b : Nat) (t : List DispatchEvent) :
    attemptedRecipients (DispatchEvent.batchReport b :: t) = attemptedRecipients t := rfl

@[simp] lemma attemptedRecipients_cons_wait (m : Nat) (t : List DispatchEvent) :
    attemptedRecipients (DispatchEvent.batchWait m :: t) = attemptedRecipients t := rfl

@[simp] lemma attemptedRecipients_append (t₁ t₂ : List DispatchEvent) :
    attemptedRecipients (t₁ ++ t₂) = attemptedRecipients t₁ ++ attemptedRecipients t₂ :=
  List.filterMap_append t₁ t₂ _

@[simp] lemma batchWaits_nil : batchWaits [] = [] := rfl

@[simp] lemma batchWaits_cons_send (r : String) (ok : Bool) (t : List DispatchEvent) :
    batchWaits (DispatchEvent.sendAttempt r ok :: t) = batchWaits t := rfl

@[simp] lemma batchWaits_cons_jitter (d : Nat) (t : List DispatchEvent) :
    batchWaits (DispatchEvent.jitterWait d :: t) = batchWaits t := rfl

@[simp] lemma batchWaits_cons_report (b : Nat) (t : List DispatchEvent) :
    batchWaits (DispatchEvent.batchReport b :: t) = batchWaits t := rfl

@[simp] lemma batchWaits_cons_wait (m : Nat) (t : List DispatchEvent) :
    batchWaits (DispatchEvent.batchWait m :: t) = m :: batchWaits t := rfl

@[simp] lemma batchWaits_append (t₁ t₂ : List DispatchEvent) :
    batchWaits (t₁ ++ t₂) = batchWaits t₁ ++ batchWaits t₂ :=
  List.filterMap_append t₁ t₂ _

@[simp] lemma jitterDelays_nil : jitterDelays [] = [] := rfl

@[simp] lemma jitterDelays_cons_send (r : String) (ok : Bool) (t : List DispatchEvent) :
    jitterDelays (DispatchEvent.sendAttempt r ok :: t) = jitterDelays t := rfl

@[simp] lemma jitterDelays_cons_jitter (d : Nat) (t : List DispatchEvent) :
    jitterDelays (DispatchEvent.jitterWait d :: t) = d :: jitterDelays t := rfl

@[simp] lemma jitterDelays_cons_report (b : Nat) (t : List DispatchEvent) :
    jitterDelays (DispatchEvent.batchReport b :: t) = jitterDelays t := rfl

@[simp] lemma jitterDelays_cons_wait (m : Nat) (t : List DispatchEvent) :
    jitterDelays (DispatchEvent.batchWait m :: t) = jitterDelays t := rfl

@[simp] lemma jitterDelays_append (t₁ t₂ : List DispatchEvent) :
    jitterDelays (t₁ ++ t₂) = jitterDelays t₁ ++ jitterDelays t₂ :=
  List.filterMap_append t₁ t₂ _

@[simp] lemma batchReportCount_nil : batchReportCount [] = 0 := rfl

@[simp] lemma batchReportCount_cons_send (r : String) (ok : Bool) (t : List DispatchEvent) :
    batchReportCount (DispatchEvent.sendAttempt r ok :: t) = batchReportCount t := rfl

@[simp] lemma batchReportCount_cons_jitter (d : Nat) (t : List DispatchEvent) :
    batchReportCount (DispatchEvent.jitterWait d :: t) = batchReportCount t := rfl

@[simp] lemma batchReportCount_cons_report (b : Nat) (t : List DispatchEvent) :
    batchReportCount (DispatchEvent.batchReport b :: t) = batchReportCount t + 1 := by
  simp [batchReportCount, List.filterMap_cons]

@[simp] lemma batchReportCount_cons_wait (m : Nat) (t : List DispatchEvent) :
    batchReportCount (DispatchEvent.batchWait m :: t) = batchReportCount t := rfl

@[simp] lemma batchReportCount_append (t₁ t₂ : List DispatchEvent) :
    batchReportCount (t₁ ++ t₂) = batchReportCount t₁ + batchReportCount t₂ := by
  simp [batchReportCount, List.filterMap_append]

@[simp] lemma sendJitterEvents_nil : sendJitterEvents [] = [] := rfl

@[simp] lemma sendJitterEvents_cons_send (r : String) (ok : Bool)
    (t : List DispatchEvent) :
    sendJitterEvents (DispatchEvent.sendAttempt r ok :: t) =
      DispatchEvent.sendAttempt r ok :: sendJitterEvents t := rfl

@[simp] lemma sendJitterEvents_cons_jitter (d : Nat) (t : List DispatchEvent) :
    sendJitterEvents (DispatchEvent.jitterWait d :: t) =
      DispatchEvent.jitterWait d :: sendJitterEvents t := rfl

@[simp] lemma sendJitterEvents_cons_report (b : Nat) (t : List DispatchEvent) :
    sendJitterEvents (DispatchEvent.batchReport b :: t) = sendJitterEvents t := rfl

@[simp] lemma sendJitterEvents_cons_wait (m : Nat) (t : List DispatchEvent) :
    sendJitterEvents (DispatchEvent.batchWait m :: t) = sendJitterEvents t := rfl

@[simp] lemma sendJitterEvents_append (t₁ t₂ : List DispatchEvent) :
    sendJitterEvents (t₁ ++ t₂) = sendJitterEvents t₁ ++ sendJitterEvents t₂ :=
  List.filter_append t₁ t₂

lemma specBatchEvents_nil (sendOk : Nat → Bool) (rnd : Nat → Nat) (idx : Nat) :
    specBatchEvents sendOk rnd [] idx = [] := rfl

lemma specBatchEvents_single (sendOk : Nat → Bool) (rnd : Nat → Nat)
    (r : String) (idx : Nat) :
    specBatchEvents sendOk rnd [r] idx =
      [DispatchEvent.sendAttempt r (sendOk idx)] := rfl

lemma specBatchEvents_cons₂ (sendOk : Nat → Bool) (rnd : Nat → Nat)
    (r r₂ : String) (rest : List String) (idx : Nat) :
    specBatchEvents sendOk rnd (r :: r₂ :: rest) idx =
      DispatchEvent.sendAttempt r (sendOk idx) ::
        ((if sendOk idx then [DispatchEvent.jitterWait (5000 + rnd idx)] else []) ++
          specBatchEvents sendOk rnd (r₂ :: rest) (idx + 1)) := rfl

/-! ### Structure of the dispatch trace -/

lemma runBatch_nil (sendOk : Nat → Bool) (rnd : Nat → Nat) (idx : Nat) :
    runBatch sendOk rnd [] idx = ([], 0, 0) := rfl

lemma runBatch_cons (sendOk : Nat → Bool) (rnd : Nat → Nat) (r : String)
    (rest : List String) (idx : Nat) :
    runBatch sendOk rnd (r :: rest) idx =
      (let tail := runBatch sendOk rnd rest (idx + 1)
       if sendOk idx then
        (DispatchEvent.sendAttempt r true ::
          ((if rest.isEmpty then [] else [DispatchEvent.jitterWait (5000 + rnd idx)]) ++
            tail.1),
         tail.2.1 + 1, tail.2.2)
       else
        (DispatchEvent.sendAttempt r false :: tail.1, tail.2.1, tail.2.2 + 1)) := rfl

/-- Every recipient of a batch receives exactly one send attempt, in batch
order, whatever the send outcomes are. -/
lemma runBatch_attempts (sendOk : Nat → Bool) (rnd : Nat → Nat) :
    ∀ (batch : List String) (idx : Nat),
      attemptedRecipients (runBatch sendOk rnd batch idx).1 = batch := by
  intro batch
  induction batch with
  | nil => intro idx; rfl
  | cons r rest ih =>
    intro idx
    rw [runBatch_cons]
    by_cases h : sendOk idx <;>
      by_cases he : rest.isEmpty <;> simp [h, he, ih]

/-- A batch trace contains no inter-batch waits. -/
lemma runBatch_batchWaits (sendOk : Nat → Bool) (rnd : Nat → Nat) :
    ∀ (batch : List String) (idx : Nat),
      batchWaits (runBatch sendOk rnd batch idx).1 = [] := by
  intro batch
  induction batch with
  | nil => intro idx; rfl
  | cons r rest ih =>
    intro idx
    rw [runBatch_cons]
    by_cases h : sendOk idx <;>
      by_cases he : rest.isEmpty <;> simp [h, he, ih]

/-- A batch trace contains no progress reports. -/
lemma runBatch_reports (sendOk : Nat → Bool) (rnd : Nat → Nat) :
    ∀ (batch : List String) (idx : Nat),
      batchReportCount (runBatch sendOk rnd batch idx).1 = 0 := by
  intro batch
  induction batch with
  | nil => intro idx; rfl
  | cons r rest ih =>
    intro idx
    rw [runBatch_cons]
    by_cases h : sendOk idx <;>
      by_cases he : rest.isEmpty <;> simp [h, he, ih]

/-- Batch success/failure counters count the attempt indices whose oracle
outcome is success resp. failure. -/
lemma runBatch_counts (sendOk : Nat → Bool) (rnd : Nat → Nat) :
    ∀ (batch : List String) (idx : Nat),
      (runBatch sendOk rnd batch idx).2.1 =
        ((List.range' idx batch.length).filter (fun i => sendOk i)).length ∧
      (runBatch sendOk rnd batch idx).2.2 =
        ((List.range' idx batch.length).filter (fun i => !(sendOk i))).length := by
  intro batch
  induction batch with
  | nil => intro idx; exact ⟨rfl, rfl⟩
  | cons r rest ih =>
    intro idx
    have h1 := (ih (idx + 1)).1
    have h2 := (ih (idx + 1)).2
    rw [runBatch_cons]
    by_cases h : sendOk idx <;>
      simp [h, List.range'_succ, h1, h2]

lemma runBatches_zero (bsz : Nat) (l : List String) (sendOk : Nat → Bool)
    (rnd : Nat → Nat) (bn : Nat) :
    runBatches bsz l sendOk rnd bn 0 = ([], 0, 0) := rfl

lemma runBatches_succ_trace (bsz : Nat) (l : List String) (sendOk : Nat → Bool)
    (rnd : Nat → Nat) (bn rem : Nat) :
    (runBatches bsz l sendOk rnd bn (rem + 1)).1 =
      (runBatch sendOk rnd
          ((l.drop (bn * bsz)).take (min (bn * bsz + bsz) l.length - bn * bsz))
          (bn * bsz)).1 ++
        DispatchEvent.batchReport bn ::
          ((if rem == 0 then [] else [DispatchEvent.batchWait (bn + 2)]) ++
            (runBatches bsz l sendOk rnd (bn + 1) rem).1) := rfl

lemma runBatches_succ_successes (bsz : Nat) (l : List String) (sendOk : Nat → Bool)
    (rnd : Nat → Nat) (bn rem : Nat) :
    (runBatches bsz l sendOk rnd bn (rem + 1)).2.1 =
      (runBatch sendOk rnd
          ((l.drop (bn * bsz)).take (min (bn * bsz + bsz) l.length - bn * bsz))
          (bn * bsz)).2.1 +
        (runBatches bsz l sendOk rnd (bn + 1) rem).2.1 := rfl

lemma runBatches_succ_failures (bsz : Nat) (l : List String) (sendOk : Nat → Bool)
    (rnd : Nat → Nat) (bn rem : Nat) :
    (runBatches bsz l sendOk rnd bn (rem + 1)).2.2 =
      (runBatch sendOk rnd
          ((l.drop (bn * bsz)).take (min (bn * bsz + bsz) l.length - bn * bsz))
          (bn * bsz)).2.2 +
        (runBatches bsz l sendOk rnd (bn + 1) rem).2.2 := rfl

/-- Across the whole batch loop, the attempted recipients are exactly the
contiguous segment of the participant list covered by the remaining
batches, in list order, independent of the send outcomes. -/
lemma runBatches_attempts (bsz : Nat) (l : List String) (sendOk : Nat → Bool)
    (rnd : Nat → Nat) :
    ∀ (remaining batchNum : Nat),
      attemptedRecipients (runBatches bsz l sendOk rnd batchNum remaining).1 =
        (l.drop (batchNum * bsz)).take (remaining * bsz) := by
  intro remaining
  induction remaining with
  | zero => intro bn; simp [runBatches_zero]
  | succ rem ih =>
    intro bn
    rw [runBatches_succ_trace]
    have hatt : attemptedRecipients
        (if rem == 0 then ([] : List DispatchEvent)
         else [DispatchEvent.batchWait (bn + 2)]) = [] := by
      by_cases h0 : rem = 0 <;> simp [h0]
    have hbatch : ((l.drop (bn * bsz)).take (min (bn * bsz + bsz) l.length - bn * bsz))
        = (l.drop (bn * bsz)).take bsz := by
      rcases Nat.le_total (bn * bsz + bsz) l.length with hle | hle
      · rw [Nat.min_eq_left hle]
        congr 1
        omega
      · rw [Nat.min_eq_right hle, List.take_of_length_le, List.take_of_length_le]
        · simp only [List.length_drop]
          omega
        · simp only [List.length_drop]
          omega
    simp only [attemptedRecipients_append, attemptedRecipients_cons_report, hatt,
      List.nil_append, runBatch_attempts, ih, hbatch]
    have hdd : l.drop ((bn + 1) * bsz) = (l.drop (bn * bsz)).drop bsz := by
      rw [List.drop_drop]
      congr 1
      ring
    rw [hdd, ← List.take_add]
    congr 1
    ring

/-- Splitting a filtered index range at a batch boundary. -/
lemma range'_filter_split (f : Nat → Bool) (s bsz L rem : Nat) :
    ((List.range' s (min bsz (L - s))).filter f).length +
      ((List.range' (s + bsz) (min (rem * bsz) (L - (s + bsz)))).filter f).length =
    ((List.range' s (min ((rem + 1) * bsz) (L - s))).filter f).length := by
  have hmul : (rem + 1) * bsz = rem * bsz + bsz := by ring
  rcases Nat.le_total bsz (L - s) with hc | hc
  · have h1 : min bsz (L - s) = bsz := Nat.min_eq_left hc
    have h2 : min ((rem + 1) * bsz) (L - s) =
        min (rem * bsz) (L - (s + bsz)) + bsz := by omega
    rw [h1, h2,
      show List.range' s (min (rem * bsz) (L - (s + bsz)) + bsz) =
          List.range' s bsz ++
            List.range' (s + bsz) (min (rem * bsz) (L - (s + bsz))) from
        (List.range'_append_1 s bsz _).symm,
      List.filter_append, List.length_append]
  · have h2 : min (rem * bsz) (L - (s + bsz)) = 0 := by omega
    have h3 : min ((rem + 1) * bsz) (L - s) = min bsz (L - s) := by omega
    rw [h2, h3]
    simp

/-- The job success/failure totals count the attempted indices whose send
oracle reports success resp. failure. -/
lemma runBatches_counts (bsz : Nat) (l : List String) (sendOk : Nat → Bool)
    (rnd : Nat → Nat) :
    ∀ (remaining batchNum : Nat),
      (runBatches bsz l sendOk rnd batchNum remaining).2.1 =
        ((List.range' (batchNum * bsz)
            (min (remaining * bsz) (l.length - batchNum * bsz))).filter
          (fun i => sendOk i)).length ∧
      (runBatches bsz l sendOk rnd batchNum remaining).2.2 =
        ((List.range' (batchNum * bsz)
            (min (remaining * bsz) (l.length - batchNum * bsz))).filter
          (fun i => !(sendOk i))).length := by
  intro remaining
  induction remaining with
  | zero =>
    intro bn
    constructor <;> simp [runBatches_zero]
  | succ rem ih =>
    intro bn
    have hblen : ((l.drop (bn * bsz)).take
        (min (bn * bsz + bsz) l.length - bn * bsz)).length =
        min bsz (l.length - bn * bsz) := by
      simp only [List.length_take, List.length_drop]
      omega
    have hs' : (bn + 1) * bsz = bn * bsz + bsz := by ring
    constructor
    · rw [runBatches_succ_successes,
        (runBatch_counts sendOk rnd _ _).1, (ih (bn + 1)).1, hblen, hs',
        range'_filter_split]
    · rw [runBatches_succ_failures,
        (runBatch_counts sendOk rnd _ _).2, (ih (bn + 1)).2, hblen, hs',
        range'_filter_split]

/-- The inter-batch waits are `batchNum + 2, batchNum + 3, …`, one fewer
than the number of batches run (no wait after the last batch). -/
lemma runBatches_waits (bsz : Nat) (l : List String) (sendOk : Nat → Bool)
    (rnd : Nat → Nat) :
    ∀ (remaining batchNum : Nat),
      batchWaits (runBatches bsz l sendOk rnd batchNum remaining).1 =
        List.range' (batchNum + 2) (remaining - 1) := by
  intro remaining
  induction remaining with
  | zero => intro bn; simp [runBatches_zero]
  | succ rem ih =>
    intro bn
    rw [runBatches_succ_trace]
    rcases rem with _ | r
    · simp [runBatch_batchWaits, ih]
    · simp only [batchWaits_append, runBatch_batchWaits, List.nil_append,
        batchWaits_cons_report]
      have hz : (r + 1 == 0) = false := rfl
      rw [hz]
      simp only [Bool.false_eq_true, if_false, List.cons_append,
        batchWaits_cons_wait, batchWaits_append, batchWaits_nil,
        List.nil_append, ih, Nat.add_sub_cancel]
      have h1 : (bn + 1) + 2 = (bn + 2) + 1 := by omega
      rw [h1, List.range'_succ]

/-- The trace contains exactly one progress report per batch run. -/
lemma runBatches_reports (bsz : Nat) (l : List String) (sendOk : Nat → Bool)
    (rnd : Nat → Nat) :
    ∀ (remaining batchNum : Nat),
      batchReportCount (runBatches bsz l sendOk rnd batchNum remaining).1 =
        remaining := by
  intro remaining
  induction remaining with
  | zero => intro bn; simp [runBatches_zero]
  | succ rem ih =>
    intro bn
    rw [runBatches_succ_trace]
    have hw : batchReportCount
        (if rem == 0 then ([] : List DispatchEvent)
         else [DispatchEvent.batchWait (bn + 2)]) = 0 := by
      by_cases h0 : rem = 0 <;> simp [h0]
    simp only [batchReportCount_append, batchReportCount_cons_report, hw,
      runBatch_reports, ih]
    omega

/-- Every jitter delay in a batch trace is `5000 + rnd k` for some draw. -/
lemma runBatch_jitter_mem (sendOk : Nat → Bool) (rnd : Nat → Nat) :
    ∀ (batch : List String) (idx : Nat) (d : Nat),
      d ∈ jitterDelays (runBatch sendOk rnd batch idx).1 →
        ∃ k, d = 5000 + rnd k := by
  intro batch
  induction batch with
  | nil =>
    intro idx d hd
    simp [runBatch_nil] at hd
  | cons r rest ih =>
    intro idx d hd
    rw [runBatch_cons] at hd
    by_cases h : sendOk idx
    · by_cases he : rest.isEmpty
      · simp only [h, he, if_true, jitterDelays_cons_send,
          List.nil_append] at hd
        exact ih (idx + 1) d hd
      · simp only [h, he, if_true, Bool.false_eq_true, if_false,
          jitterDelays_cons_send, List.cons_append, List.nil_append,
          jitterDelays_cons_jitter, List.mem_cons] at hd
        rcases hd with hd | hd
        · exact ⟨idx, hd⟩
        · exact ih (idx + 1) d hd
    · simp only [h, Bool.false_eq_true, if_false,
        jitterDelays_cons_send] at hd
      exact ih (idx + 1) d hd

/-- Every jitter delay in the whole dispatch trace is `5000 + rnd k` for
some draw. -/
lemma runBatches_jitter_mem (bsz : Nat) (l : List String) (sendOk : Nat → Bool)
    (rnd : Nat → Nat) :
    ∀ (remaining batchNum : Nat) (d : Nat),
      d ∈ jitterDelays (runBatches bsz l sendOk rnd batchNum remaining).1 →
        ∃ k, d = 5000 + rnd k := by
  intro remaining
  induction remaining with
  | zero =>
    intro bn d hd
    simp [runBatches_zero] at hd
  | succ rem ih =>
    intro bn d hd
    rw [runBatches_succ_trace] at hd
    have hw : jitterDelays
        (if rem == 0 then ([] : List DispatchEvent)
         else [DispatchEvent.batchWait (bn + 2)]) = [] := by
      by_cases h0 : rem = 0 <;> simp [h0]
    simp only [jitterDelays_append, jitterDelays_cons_report, hw,
      List.nil_append, List.mem_append] at hd
    rcases hd with hd | hd
    · exact runBatch_jitter_mem sendOk rnd _ _ d hd
    · exact ih (bn + 1) d hd

/-! ### Placement of the per-message jitter waits -/

/-- Is the event a jitter wait? -/
def isJitterEvent : DispatchEvent → Bool
  | .jitterWait _ => true
  | _ => false

/-- Is the event a successful send attempt? -/
def isSuccessSend : DispatchEvent → Bool
  | .sendAttempt _ ok => ok
  | _ => false

/-- Is the event an end-of-batch progress report? -/
def isReportEvent : DispatchEvent → Bool
  | .batchReport _ => true
  | _ => false

/-- Adjacency discipline of jitter waits in a dispatch trace: a jitter wait
is always immediately preceded by a successful send attempt, and a
successful send attempt is always immediately followed by a jitter wait
unless its batch ends there (progress report). -/
def jitterAdj (e₁ e₂ : DispatchEvent) : Prop :=
  (isJitterEvent e₂ = true → isSuccessSend e₁ = true) ∧
  (isSuccessSend e₁ = true → isJitterEvent e₂ = true ∨ isReportEvent e₂ = true)

lemma jitterAdj_of_flags {e₁ e₂ : DispatchEvent} (h1 : isSuccessSend e₁ = false)
    (h2 : isJitterEvent e₂ = false) : jitterAdj e₁ e₂ := by
  constructor
  · intro hj
    rw [h2] at hj
    cases hj
  · intro hs
    rw [h1] at hs
    cases hs

/-- Explicit head/tail form of a nonempty batch trace. -/
lemma runBatch_trace_cons (sendOk : Nat → Bool) (rnd : Nat → Nat) (r : String)
    (rest : List String) (idx : Nat) :
    (runBatch sendOk rnd (r :: rest) idx).1 =
      DispatchEvent.sendAttempt r (sendOk idx) ::
        (if sendOk idx then
          (if rest.isEmpty then [] else [DispatchEvent.jitterWait (5000 + rnd idx)]) ++
            (runBatch sendOk rnd rest (idx + 1)).1
         else (runBatch sendOk rnd rest (idx + 1)).1) := by
  rw [runBatch_cons]
  by_cases h : sendOk idx <;> simp [h]

lemma jitterAdj_send_to_report (r : String) (ok : Bool) (b : Nat) :
    jitterAdj (DispatchEvent.sendAttempt r ok) (DispatchEvent.batchReport b) := by
  constructor
  · intro hj
    simp [isJitterEvent] at hj
  · intro _
    exact Or.inr rfl

lemma jitterAdj_success_to_jitter (r : String) (d : Nat) :
    jitterAdj (DispatchEvent.sendAttempt r true) (DispatchEvent.jitterWait d) := by
  constructor
  · intro _
    rfl
  · intro _
    exact Or.inl rfl

/-- A batch trace followed by its progress report satisfies the jitter
adjacency discipline. -/
lemma runBatch_chain (sendOk : Nat → Bool) (rnd : Nat → Nat) :
    ∀ (batch : List String) (idx b : Nat) (tail : List DispatchEvent),
      List.Chain' jitterAdj (DispatchEvent.batchReport b :: tail) →
      List.Chain' jitterAdj
        ((runBatch sendOk rnd batch idx).1 ++ DispatchEvent.batchReport b :: tail) := by
  intro batch
  induction batch with
  | nil =>
    intro idx b tail htail
    simpa [runBatch_nil] using htail
  | cons r rest ih =>
    intro idx b tail htail
    rw [runBatch_trace_cons]
    by_cases h : sendOk idx
    · rcases rest with _ | ⟨r₂, rest₂⟩
      · simp only [h, List.isEmpty_nil, if_true, runBatch_nil, List.nil_append,
          List.cons_append]
        exact List.Chain'.cons (jitterAdj_send_to_report r true b) htail
      · simp only [h, List.isEmpty_cons, Bool.false_eq_true, if_true, if_false,
          List.cons_append, List.singleton_append]
        have hchain := ih (idx + 1) b tail htail
        rw [runBatch_trace_cons] at hchain ⊢
        simp only [List.nil_append, List.cons_append] at hchain ⊢
        exact List.Chain'.cons (jitterAdj_success_to_jitter r (5000 + rnd idx))
          (List.Chain'.cons (jitterAdj_of_flags rfl rfl) hchain)
    · have hf : sendOk idx = false := by simpa using h
      rcases rest with _ | ⟨r₂, rest₂⟩
      · simp only [hf, Bool.false_eq_true, if_false, runBatch_nil,
          List.nil_append, List.cons_append]
        exact List.Chain'.cons (jitterAdj_send_to_report r false b) htail
      · simp only [hf, Bool.false_eq_true, if_false, List.cons_append]
        have hchain := ih (idx + 1) b tail htail
        rw [runBatch_trace_cons] at hchain ⊢
        simp only [List.nil_append, List.cons_append] at hchain ⊢
        exact List.Chain'.cons (jitterAdj_of_flags rfl rfl) hchain

/-- The first event of a dispatch trace is never a jitter wait. -/
lemma runBatches_head_not_jitter (bsz : Nat) (l : List String) (sendOk : Nat → Bool)
    (rnd : Nat → Nat) :
    ∀ (remaining batchNum : Nat) (e : DispatchEvent),
      ((runBatches bsz l sendOk rnd batchNum remaining).1).head? = some e →
        isJitterEvent e = false := by
  intro remaining
  induction remaining with
  | zero =>
    intro bn e he
    rw [runBatches_zero] at he
    cases he
  | succ rem _ =>
    intro bn e he
    rw [runBatches_succ_trace] at he
    cases hB : ((l.drop (bn * bsz)).take (min (bn * bsz + bsz) l.length - bn * bsz)) with
    | nil =>
      rw [hB, runBatch_nil, List.nil_append] at he
      simp only [List.head?_cons, Option.some.injEq] at he
      rw [← he]
      rfl
    | cons r rest =>
      rw [hB, runBatch_trace_cons, List.cons_append] at he
      simp only [List.head?_cons, Option.some.injEq] at he
      rw [← he]
      rfl

/-- The whole dispatch trace satisfies the jitter adjacency discipline. -/
lemma runBatches_chain (bsz : Nat) (l : List String) (sendOk : Nat → Bool)
    (rnd : Nat → Nat) :
    ∀ (remaining batchNum : Nat),
      List.Chain' jitterAdj (runBatches bsz l sendOk rnd batchNum remaining).1 := by
  intro remaining
  induction remaining with
  | zero =>
    intro bn
    rw [runBatches_zero]
    exact List.chain'_nil
  | succ rem ih =>
    intro bn
    rw [runBatches_succ_trace]
    apply runBatch_chain
    by_cases h0 : rem = 0
    · subst h0
      simp only [runBatches_zero]
      simp
    · have hz : (rem == 0) = false := by simp [h0]
      rw [hz]
      simp only [Bool.false_eq_true, if_false, List.singleton_append]
      refine List.Chain'.cons (jitterAdj_of_flags rfl rfl) ?_
      refine List.Chain'.cons' (ih (bn + 1)) ?_
      intro y hy
      exact jitterAdj_of_flags rfl
        (runBatches_head_not_jitter bsz l sendOk rnd rem (bn + 1) y
          (Option.mem_def.mp hy))

/-- The send/jitter subsequence of a batch trace is exactly the
prescribed interleaving of `specBatchEvents`: one attempt per recipient,
with a jitter wait immediately after every successful non-final attempt
and nowhere else. -/
lemma runBatch_sendJitter (sendOk : Nat → Bool) (rnd : Nat → Nat) :
    ∀ (batch : List String) (idx : Nat),
      sendJitterEvents (runBatch sendOk rnd batch idx).1 =
        specBatchEvents sendOk rnd batch idx := by
  intro batch
  induction batch with
  | nil => intro idx; rfl
  | cons r rest ih =>
    intro idx
    rw [runBatch_trace_cons]
    rcases rest with _ | ⟨r₂, rest₂⟩
    · by_cases h : sendOk idx <;>
        simp [h, runBatch_nil, specBatchEvents_single]
    · rw [specBatchEvents_cons₂, ← ih (idx + 1)]
      by_cases h : sendOk idx <;> simp [h]

/-- The send/jitter subsequence of the whole batch loop is the
concatenation of the prescribed per-batch interleavings, batch by batch. -/
lemma runBatches_sendJitter (bsz : Nat) (t : List String) (sendOk : Nat → Bool)
    (rnd : Nat → Nat) :
    ∀ (remaining batchNum : Nat),
      sendJitterEvents (runBatches bsz t sendOk rnd batchNum remaining).1 =
        (List.range' batchNum remaining).flatMap
          (fun k => specBatchEvents sendOk rnd
            ((t.drop (k * bsz)).take bsz) (k * bsz)) := by
  intro remaining
  induction remaining with
  | zero => intro bn; simp [runBatches_zero]
  | succ rem ih =>
    intro bn
    rw [runBatches_succ_trace]
    have hw : sendJitterEvents
        (if rem == 0 then ([] : List DispatchEvent)
         else [DispatchEvent.batchWait (bn + 2)]) = [] := by
      by_cases h0 : rem = 0 <;> simp [h0]
    have hbatch : ((t.drop (bn * bsz)).take
        (min (bn * bsz + bsz) t.length - bn * bsz))
        = (t.drop (bn * bsz)).take bsz := by
      rcases Nat.le_total (bn * bsz + bsz) t.length with hle | hle
      · rw [Nat.min_eq_left hle]
        congr 1
        omega
      · rw [Nat.min_eq_right hle, List.take_of_length_le, List.take_of_length_le]
        · simp only [List.length_drop]
          omega
        · simp only [List.length_drop]
          omega
    simp only [sendJitterEvents_append, sendJitterEvents_cons_report, hw,
      List.nil_append, runBatch_sendJitter, hbatch, ih]
    rw [List.range'_succ]
    simp [List.flatMap_cons]

/-! ### The dispatch core, assembled -/

lemma pushContactDispatch_trace (l : List String) (sendOk : Nat → Bool)
    (rnd : Nat → Nat) :
    (pushContactDispatch l sendOk rnd).trace =
      (runBatches 10 (l.take (min l.length 50)) sendOk rnd 0
        ((min l.length 50 + 10 - 1) / 10)).1 := rfl

lemma pushContactDispatch_totalSuccess (l : List String) (sendOk : Nat → Bool)
    (rnd : Nat → Nat) :
    (pushContactDispatch l sendOk rnd).totalSuccess =
      (runBatches 10 (l.take (min l.length 50)) sendOk rnd 0
        ((min l.length 50 + 10 - 1) / 10)).2.1 := rfl

lemma pushContactDispatch_totalFailure (l : List String) (sendOk : Nat → Bool)
    (rnd : Nat → Nat) :
    (pushContactDispatch l sendOk rnd).totalFailure =
      (runBatches 10 (l.take (min l.length 50)) sendOk rnd 0
        ((min l.length 50 + 10 - 1) / 10)).2.2 := rfl

lemma pushContactDispatch_totalToProcess (l : List String) (sendOk : Nat → Bool)
    (rnd : Nat → Nat) :
    (pushContactDispatch l sendOk rnd).totalToProcess = min l.length 50 := rfl

lemma pushContactDispatch_totalBatches (l : List String) (sendOk : Nat → Bool)
    (rnd : Nat → Nat) :
    (pushContactDispatch l sendOk rnd).totalBatches =
      (min l.length 50 + 10 - 1) / 10 := rfl

/-- Ceiling division rounds up far enough to cover everything. -/
lemma ceil_cover (a : Nat) : a ≤ (a + 9) / 10 * 10 := by
  have h1 := Nat.div_add_mod (a + 9) 10
  have h2 : (a + 9) % 10 < 10 := Nat.mod_lt _ (by norm_num)
  omega

lemma take_min_length_50 (l : List String) : l.take (min l.length 50) = l.take 50 := by
  rcases Nat.le_total l.length 50 with h | h
  · rw [Nat.min_eq_left h, List.take_length, List.take_of_length_le h]
  · rw [Nat.min_eq_right h]

/-- The dispatcher attempts a send to exactly the first
`min l.length 50` participants, in the original list order, no matter how
the individual sends turn out. -/
lemma pushContactDispatch_attempts (l : List String) (sendOk : Nat → Bool)
    (rnd : Nat → Nat) :
    attemptedRecipients (pushContactDispatch l sendOk rnd).trace = l.take 50 := by
  rw [pushContactDispatch_trace, runBatches_attempts, Nat.zero_mul, List.drop_zero]
  have h9 : min l.length 50 + 10 - 1 = min l.length 50 + 9 := by omega
  rw [h9]
  rw [List.take_of_length_le]
  · exact take_min_length_50 l
  · have hcov := ceil_cover (min l.length 50)
    have hlen : (l.take (min l.length 50)).length = min l.length 50 := by
      simp only [List.length_take]
      omega
    omega

/-- The inter-batch waits are `2, 3, 4, …` minutes, one fewer than the
number of batches. -/
lemma pushContactDispatch_waits (l : List String) (sendOk : Nat → Bool)
    (rnd : Nat → Nat) :
    batchWaits (pushContactDispatch l sendOk rnd).trace =
      List.range' 2 ((pushContactDispatch l sendOk rnd).totalBatches - 1) := by
  rw [pushContactDispatch_trace, runBatches_waits, pushContactDispatch_totalBatches]

/-- One progress report per batch. -/
lemma pushContactDispatch_reports (l : List String) (sendOk : Nat → Bool)
    (rnd : Nat → Nat) :
    batchReportCount (pushContactDispatch l sendOk rnd).trace =
      (pushContactDispatch l sendOk rnd).totalBatches := by
  rw [pushContactDispatch_trace, runBatches_reports, pushContactDispatch_totalBatches]

/-- The job totals count the success/failure outcomes over exactly the
truncated index range `0 … min l.length 50 - 1`. -/
lemma pushContactDispatch_counts (l : List String) (sendOk : Nat → Bool)
    (rnd : Nat → Nat) :
    (pushContactDispatch l sendOk rnd).totalSuccess =
      ((List.range' 0 (min l.length 50)).filter (fun i => sendOk i)).length ∧
    (pushContactDispatch l sendOk rnd).totalFailure =
      ((List.range' 0 (min l.length 50)).filter (fun i => !(sendOk i))).length := by
  have hlen : (l.take (min l.length 50)).length = min l.length 50 := by
    simp only [List.length_take]
    omega
  have h9 : min l.length 50 + 10 - 1 = min l.length 50 + 9 := by omega
  have hcov := ceil_cover (min l.length 50)
  have hmin : min ((min l.length 50 + 10 - 1) / 10 * 10)
      ((l.take (min l.length 50)).length - 0 * 10) = min l.length 50 := by
    rw [hlen, h9]
    omega
  constructor
  · rw [pushContactDispatch_totalSuccess, (runBatches_counts 10 _ sendOk rnd _ 0).1,
      hmin, Nat.zero_mul]
  · rw [pushContactDispatch_totalFailure, (runBatches_counts 10 _ sendOk rnd _ 0).2,
      hmin, Nat.zero_mul]

/-- Every jitter delay of the dispatch is one of the drawn values
`5000 + rnd k`. -/
lemma pushContactDispatch_jitter_mem (l : List String) (sendOk : Nat → Bool)
    (rnd : Nat → Nat) (d : Nat)
    (hd : d ∈ jitterDelays (pushContactDispatch l sendOk rnd).trace) :
    ∃ k, d = 5000 + rnd k := by
  rw [pushContactDispatch_trace] at hd
  exact runBatches_jitter_mem 10 _ sendOk rnd _ 0 d hd

/-- The whole dispatch trace satisfies the jitter adjacency discipline. -/
lemma pushContactDispatch_chain (l : List String) (sendOk : Nat → Bool)
    (rnd : Nat → Nat) :
    List.Chain' jitterAdj (pushContactDispatch l sendOk rnd).trace := by
  rw [pushContactDispatch_trace]
  exact runBatches_chain 10 _ sendOk rnd _ 0

/-- The send/jitter subsequence of the whole dispatch trace equals the
prescribed per-batch interleaving over the 50-truncated recipient list. -/
lemma pushContactDispatch_sendJitter (l : List String) (sendOk : Nat → Bool)
    (rnd : Nat → Nat) :
    sendJitterEvents (pushContactDispatch l sendOk rnd).trace =
      (List.range (pushContactDispatch l sendOk rnd).totalBatches).flatMap
        (fun k => specBatchEvents sendOk rnd
          (((l.take 50).drop (k * 10)).take 10) (k * 10)) := by
  rw [pushContactDispatch_trace, runBatches_sendJitter,
    pushContactDispatch_totalBatches, List.range_eq_range']
  simp only [take_min_length_50]

/-! ### Contact storage lemmas -/

@[simp] lemma mergeContact_number (existing cd : ContactData) :
    (mergeContact existing cd).number = cd.number := rfl

lemma addContact_nil (cd : ContactData) : addContact [] cd = [cd] := rfl

/-- One-step unfolding of `addContact` on a nonempty store. -/
lemma addContact_cons (c : ContactData) (rest : List ContactData) (cd : ContactData) :
    addContact (c :: rest) cd =
      if c.number == cd.number then mergeContact c cd :: rest
      else c :: addContact rest cd := by
  unfold addContact
  by_cases h : c.number == cd.number
  · simp [h]
  · simp only [List.findIdx?_cons, h, Bool.false_eq_true, if_false,
      List.findIdx?_succ]
    cases hfi : rest.findIdx? (fun x => x.number == cd.number) with
    | none => simp [hfi]
    | some i =>
      simp only [hfi, Option.map_some', List.getElem?_cons_succ]
      cases hge : rest[i]? with
      | none => simp
      | some old => simp

/-- Membership formulation of `exists`. -/
lemma contactExists_iff (contacts : List ContactData) (n : String) :
    contactExists contacts n = true ↔ n ∈ contacts.map ContactData.number := by
  simp only [contactExists, List.any_eq_true, List.mem_map, beq_iff_eq]

/-- When the number is already stored, `addContact` leaves the stored
numbers unchanged. -/
lemma addContact_map_number_of_exists (cd : ContactData) :
    ∀ (contacts : List ContactData),
      contactExists contacts cd.number = true →
      (addContact contacts cd).map ContactData.number =
        contacts.map ContactData.number := by
  intro contacts
  induction contacts with
  | nil =>
    intro h
    simp [contactExists] at h
  | cons c rest ih =>
    intro h
    rw [addContact_cons]
    by_cases hc : c.number == cd.number
    · simp only [hc, if_true, List.map_cons, mergeContact_number]
      rw [beq_iff_eq.mp hc]
    · have h' : contactExists rest cd.number = true := by
        simp only [contactExists, List.any_cons, hc, Bool.false_or] at h
        exact h
      simp only [hc, Bool.false_eq_true, if_false, List.map_cons, ih h']

/-- When the number is fresh, `addContact` appends exactly its number. -/
lemma addContact_map_number_of_fresh (cd : ContactData) :
    ∀ (contacts : List ContactData),
      contactExists contacts cd.number = false →
      (addContact contacts cd).map ContactData.number =
        contacts.map ContactData.number ++ [cd.number] := by
  intro contacts
  induction contacts with
  | nil => intro _; rfl
  | cons c rest ih =>
    intro h
    simp only [contactExists, List.any_cons, Bool.or_eq_false_iff] at h
    rw [addContact_cons]
    simp only [h.1, Bool.false_eq_true, if_false, List.map_cons, List.cons_append]
    rw [ih h.2]

/-- When the number is already stored, `addContact` updates the matching
entry in place with the spread merge. -/
lemma addContact_update (cd : ContactData) :
    ∀ (contacts : List ContactData),
      contactExists contacts cd.number = true →
      ∃ i old, contacts[i]? = some old ∧ old.number = cd.number ∧
        addContact contacts cd = contacts.set i (mergeContact old cd) := by
  intro contacts
  induction contacts with
  | nil =>
    intro h
    simp [contactExists] at h
  | cons c rest ih =>
    intro h
    rw [addContact_cons]
    by_cases hc : c.number == cd.number
    · exact ⟨0, c, by simp, beq_iff_eq.mp hc, by simp [hc]⟩
    · have h' : contactExists rest cd.number = true := by
        simp only [contactExists, List.any_cons, hc, Bool.false_or] at h
        exact h
      obtain ⟨i, old, hget, hnum, heq⟩ := ih h'
      refine ⟨i + 1, old, by simpa using hget, hnum, ?_⟩
      simp [hc, heq]

/-- When the number is fresh, `addContact` appends the new entry. -/
lemma addContact_fresh (cd : ContactData) :
    ∀ (contacts : List ContactData),
      contactExists contacts cd.number = false →
      addContact contacts cd = contacts ++ [cd] := by
  intro contacts
  induction contacts with
  | nil => intro _; rfl
  | cons c rest ih =>
    intro h
    simp only [contactExists, List.any_cons, Bool.or_eq_false_iff] at h
    rw [addContact_cons]
    simp only [h.1, Bool.false_eq_true, if_false, List.cons_append]
    rw [ih h.2]

/-- Adding an element makes it a member of the set. -/
lemma setAdd_mem (s : List String) (x : String) : x ∈ setAdd s x := by
  unfold setAdd
  by_cases h : s.contains x
  · rw [if_pos h]
    simpa using h
  · rw [if_neg h]
    simp

/-! ## The claims -/

/-- C1: processing the same StatusEvent id twice through
`viewAndSaveStatus` yields exactly one acknowledgement, one archive
attempt and one forwarded summary in total; for an id already in the seen
set the invocation performs no acknowledgement, no archive write, no
forward, and leaves the registry unchanged — so the second of two
invocations on the same id is always a complete no-op. -/
theorem viewAndSaveStatus_idempotent (st : RegistryState) (msg : StatusMessage)
    (hen : st.enabled = true) :
    (st.viewedStatuses.contains msg.key.id = true →
      viewAndSaveStatus st msg = (st, CaptureEffects.none)) ∧
    viewAndSaveStatus (viewAndSaveStatus st msg).1 msg =
      ((viewAndSaveStatus st msg).1, CaptureEffects.none) ∧
    (viewAndSaveStatus st msg).2.archiveAttempts +
        (viewAndSaveStatus (viewAndSaveStatus st msg).1 msg).2.archiveAttempts =
      (if st.viewedStatuses.contains msg.key.id then 0 else 1) ∧
    (viewAndSaveStatus st msg).2.forwards +
        (viewAndSaveStatus (viewAndSaveStatus st msg).1 msg).2.forwards =
      (if st.viewedStatuses.contains msg.key.id then 0 else 1) ∧
    (viewAndSaveStatus st msg).2.acks +
        (viewAndSaveStatus (viewAndSaveStatus st msg).1 msg).2.acks =
      (if st.viewedStatuses.contains msg.key.id then 0 else 1) := by
  by_cases hmem : msg.key.id ∈ st.viewedStatuses <;>
    simp [viewAndSaveStatus, hen, hmem, setAdd_mem, CaptureEffects.none]

/-- Witness for C1 at a concrete fresh registry and status id. -/
theorem viewAndSaveStatus_idempotent_witness :
    viewAndSaveStatus
        (viewAndSaveStatus { enabled := true, viewedStatuses := [] }
          { key := { id := "S1" } }).1 { key := { id := "S1" } } =
      ((viewAndSaveStatus { enabled := true, viewedStatuses := [] }
          { key := { id := "S1" } }).1, CaptureEffects.none) :=
  (viewAndSaveStatus_idempotent { enabled := true, viewedStatuses := [] }
    { key := { id := "S1" } } rfl).2.1

/-- C6: when the registry's capture-enabled flag is false,
`viewAndSaveStatus` produces no acknowledgement, no archive write, no
forward, adds nothing to the seen set, and leaves the whole registry state
unchanged (part_000 line 42: `if (!this.enabled) return`). -/
theorem viewAndSaveStatus_disabled_noop (st : RegistryState) (msg : StatusMessage)
    (hdis : st.enabled = false) :
    viewAndSaveStatus st msg = (st, CaptureEffects.none) := by
  simp [viewAndSaveStatus, hdis]

/-- Witness for C6 at a concrete disabled registry. -/
theorem viewAndSaveStatus_disabled_noop_witness :
    viewAndSaveStatus { enabled := false, viewedStatuses := ["A"] }
        { key := { id := "B" } } =
      ({ enabled := false, viewedStatuses := ["A"] }, CaptureEffects.none) :=
  viewAndSaveStatus_disabled_noop _ _ rfl

/-- C9 counterexample: the `.status` toggle command does not invert the
persisted registry's `enabled` flag and performs no registry write.  At a
state whose registry flag is `true`, the flag is still `true` after the
command (not inverted), `0` registry writes happen, and it is the bot
settings' `autoStatusView` that flips instead. -/
theorem dotStatus_registry_counterexample :
    (dotStatusCommand sampleBotState).1.registry =
      { enabled := true, viewedStatuses := ["id1"] } ∧
    ¬ ((dotStatusCommand sampleBotState).1.registry.enabled
        = !sampleBotState.registry.enabled) ∧
    (dotStatusCommand sampleBotState).2.registryWrites = 0 ∧
    (dotStatusCommand sampleBotState).1.settings.autoStatusView = false := by
  refine ⟨rfl, ?_, rfl, rfl⟩
  decide

/-- C9 amended: the `.status` command inverts the bot's persisted
`autoStatusView` setting (the flag that gates capture in
`handleStatusUpdates`) and writes the settings store exactly once; the
capture engine's `{enabled, seenStatuses}` registry — flag and seen-id set
alike — is neither modified nor written. -/
theorem dotStatus_toggles_settings_only (b : BotState) :
    (dotStatusCommand b).1.settings.autoStatusView = !b.settings.autoStatusView ∧
    (dotStatusCommand b).1.registry = b.registry ∧
    (dotStatusCommand b).2 = { settingsWrites := 1, registryWrites := 0 } :=
  ⟨rfl, rfl, rfl⟩

/-- C2: a job with 73 recipients (with the hard-coded `maxTotal = 50`,
`batchSize = 10` of the source) attempts sends to exactly the first 50
recipients, in original order, whatever the outcomes, and partitions them
into exactly `ceil(50/10) = 5` batches (5 progress reports). -/
theorem pushContact_truncation_73 (l : List String) (sendOk : Nat → Bool)
    (rnd : Nat → Nat) (h : l.length = 73) :
    attemptedRecipients (pushContactDispatch l sendOk rnd).trace = l.take 50 ∧
    (pushContactDispatch l sendOk rnd).totalToProcess = 50 ∧
    (pushContactDispatch l sendOk rnd).totalBatches = 5 ∧
    batchReportCount (pushContactDispatch l sendOk rnd).trace = 5 := by
  refine ⟨pushContactDispatch_attempts l sendOk rnd, ?_, ?_, ?_⟩
  · rw [pushContactDispatch_totalToProcess, h]
    decide
  · rw [pushContactDispatch_totalBatches, h]
    decide
  · rw [pushContactDispatch_reports, pushContactDispatch_totalBatches, h]
    decide

/-- Witness for C2 at a concrete 73-recipient list. -/
theorem pushContact_truncation_73_witness :
    attemptedRecipients (pushContactDispatch (List.replicate 73 "r")
        (fun _ => true) (fun _ => 0)).trace = (List.replicate 73 "r").take 50 ∧
    (pushContactDispatch (List.replicate 73 "r") (fun _ => true)
        (fun _ => 0)).totalToProcess = 50 ∧
    (pushContactDispatch (List.replicate 73 "r") (fun _ => true)
        (fun _ => 0)).totalBatches = 5 ∧
    batchReportCount (pushContactDispatch (List.replicate 73 "r")
        (fun _ => true) (fun _ => 0)).trace = 5 :=
  pushContact_truncation_73 _ _ _ (by simp)

/-- C3 counterexample: for a concrete 5-batch job (50 recipients, all sends
succeeding) the inter-batch waits are `[2, 3, 4, 5]` minutes — not
`[2, 3, 4, 4]` as the claim's enumerated list states (the code waits
`batchNum + 2` minutes after batch `batchNum`, so the fourth wait is 5). -/
theorem pushContact_backoff_counterexample :
    batchWaits (pushContactDispatch (List.replicate 50 "r") (fun _ => true)
        (fun _ => 0)).trace = [2, 3, 4, 5] ∧
    batchWaits (pushContactDispatch (List.replicate 50 "r") (fun _ => true)
        (fun _ => 0)).trace ≠ [2, 3, 4, 4] := by
  constructor
  · decide
  · decide

/-- C3 amended: for every job the inter-batch waits are
`2, 3, 4, …` minutes — the wait before batch `k` (0-indexed, `k > 0`)
equals `k + 1` minutes, with no wait after the last batch (one fewer wait
than batches); in particular a 5-batch job waits `[2, 3, 4, 5]`. -/
theorem pushContact_backoff_schedule (l : List String) (sendOk : Nat → Bool)
    (rnd : Nat → Nat) :
    batchWaits (pushContactDispatch l sendOk rnd).trace =
      List.range' 2 ((pushContactDispatch l sendOk rnd).totalBatches - 1) ∧
    ((pushContactDispatch l sendOk rnd).totalBatches = 5 →
      batchWaits (pushContactDispatch l sendOk rnd).trace = [2, 3, 4, 5]) := by
  refine ⟨pushContactDispatch_waits l sendOk rnd, ?_⟩
  intro h5
  rw [pushContactDispatch_waits, h5]
  rfl

/-- Witness for the amended C3 at a concrete 5-batch job. -/
theorem pushContact_backoff_schedule_witness :
    batchWaits (pushContactDispatch (List.replicate 50 "w") (fun _ => true)
        (fun _ => 0)).trace = [2, 3, 4, 5] :=
  (pushContact_backoff_schedule _ _ _).2 (by decide)

/-- C4: with 10 recipients where exactly the send to recipient 3
(0-indexed attempt 2) fails, all 10 recipients — including recipients 4
through 10 — still receive exactly one send attempt in order, and the
final totals are `totalSuccess = 9`, `totalFailure = 1`: one failure never
aborts the batch or the job. -/
theorem pushContact_failure_isolation (l : List String) (sendOk : Nat → Bool)
    (rnd : Nat → Nat) (hlen : l.length = 10)
    (hfail : sendOk 2 = false) (hok : ∀ i, i < 10 → i ≠ 2 → sendOk i = true) :
    attemptedRecipients (pushContactDispatch l sendOk rnd).trace = l ∧
    (pushContactDispatch l sendOk rnd).totalSuccess = 9 ∧
    (pushContactDispatch l sendOk rnd).totalFailure = 1 := by
  have hmin : min l.length 50 = 10 := by
    rw [hlen]
    decide
  have e0 : sendOk 0 = true := hok 0 (by norm_num) (by norm_num)
  have e1 : sendOk 1 = true := hok 1 (by norm_num) (by norm_num)
  have e3 : sendOk 3 = true := hok 3 (by norm_num) (by norm_num)
  have e4 : sendOk 4 = true := hok 4 (by norm_num) (by norm_num)
  have e5 : sendOk 5 = true := hok 5 (by norm_num) (by norm_num)
  have e6 : sendOk 6 = true := hok 6 (by norm_num) (by norm_num)
  have e7 : sendOk 7 = true := hok 7 (by norm_num) (by norm_num)
  have e8 : sendOk 8 = true := hok 8 (by norm_num) (by norm_num)
  have e9 : sendOk 9 = true := hok 9 (by norm_num) (by norm_num)
  refine ⟨?_, ?_, ?_⟩
  · rw [pushContactDispatch_attempts]
    exact List.take_of_length_le (by omega)
  · rw [(pushContactDispatch_counts l sendOk rnd).1, hmin,
      show List.range' 0 10 = [0, 1, 2, 3, 4, 5, 6, 7, 8, 9] from rfl]
    simp [List.filter, e0, e1, hfail, e3, e4, e5, e6, e7, e8, e9]
  · rw [(pushContactDispatch_counts l sendOk rnd).2, hmin,
      show List.range' 0 10 = [0, 1, 2, 3, 4, 5, 6, 7, 8, 9] from rfl]
    simp [List.filter, e0, e1, hfail, e3, e4, e5, e6, e7, e8, e9]

/-- Witness for C4 at a concrete 10-recipient job whose third send fails. -/
theorem pushContact_failure_isolation_witness :
    attemptedRecipients (pushContactDispatch (List.replicate 10 "p")
        (fun i => decide (i ≠ 2)) (fun _ => 0)).trace = List.replicate 10 "p" ∧
    (pushContactDispatch (List.replicate 10 "p") (fun i => decide (i ≠ 2))
        (fun _ => 0)).totalSuccess = 9 ∧
    (pushContactDispatch (List.replicate 10 "p") (fun i => decide (i ≠ 2))
        (fun _ => 0)).totalFailure = 1 :=
  pushContact_failure_isolation _ _ _ (by simp) (by decide)
    (fun i _ hne => decide_eq_true hne)

/-- C5 counterexample: in a 2-recipient batch whose first send fails and
whose second succeeds, the two send attempts are adjacent in the trace
with no jitter wait between them — the per-message delay is skipped after
a failed send (the `setTimeout` sits inside the `try` block after the
successful `sendMessage`, commands/index.js lines 432–441), refuting
"regardless of whether the earlier send succeeded or failed". -/
theorem pushContact_jitter_counterexample :
    (pushContactDispatch ["a", "b"] (fun i => decide (i ≠ 0))
        (fun _ => 0)).trace =
      [DispatchEvent.sendAttempt "a" false, DispatchEvent.sendAttempt "b" true,
        DispatchEvent.batchReport 0] ∧
    jitterDelays (pushContactDispatch ["a", "b"] (fun i => decide (i ≠ 0))
        (fun _ => 0)).trace = [] := by
  constructor
  · decide
  · decide

/-- C5 amended: every jitter delay in a dispatch trace lies in
`[5000, 8000)` ms (given the random draw bound `rnd k < 3000` of
`Math.floor(Math.random() * 3000)`), and the jitter waits sit exactly
where the amended claim prescribes: restricted to its send and jitter
events, the trace equals — batch by batch over the 50-truncated recipient
list — the `specBatchEvents` interleaving, which puts exactly one jitter
wait immediately after every successful send attempt that is not the last
of its batch, none after a failed attempt, and none after a batch's last
attempt.  The `Chain'` conjunct additionally gives the local adjacency
discipline over the full trace, reports and inter-batch waits included. -/
theorem pushContact_jitter_placement (l : List String) (sendOk : Nat → Bool)
    (rnd : Nat → Nat) (hr : ∀ k, rnd k < 3000) :
    (∀ d ∈ jitterDelays (pushContactDispatch l sendOk rnd).trace,
      5000 ≤ d ∧ d < 8000) ∧
    sendJitterEvents (pushContactDispatch l sendOk rnd).trace =
      (List.range (pushContactDispatch l sendOk rnd).totalBatches).flatMap
        (fun k => specBatchEvents sendOk rnd
          (((l.take 50).drop (k * 10)).take 10) (k * 10)) ∧
    List.Chain' jitterAdj (pushContactDispatch l sendOk rnd).trace := by
  refine ⟨?_, pushContactDispatch_sendJitter l sendOk rnd,
    pushContactDispatch_chain l sendOk rnd⟩
  intro d hd
  obtain ⟨k, hk⟩ := pushContactDispatch_jitter_mem l sendOk rnd d hd
  have := hr k
  omega

/-- Witness for the amended C5 at a concrete 2-recipient job. -/
theorem pushContact_jitter_placement_witness :
    (∀ d ∈ jitterDelays (pushContactDispatch ["x", "y"] (fun _ => true)
        (fun _ => 0)).trace, 5000 ≤ d ∧ d < 8000) ∧
    sendJitterEvents (pushContactDispatch ["x", "y"] (fun _ => true)
        (fun _ => 0)).trace =
      (List.range (pushContactDispatch ["x", "y"] (fun _ => true)
          (fun _ => 0)).totalBatches).flatMap
        (fun k => specBatchEvents (fun _ => true) (fun _ => 0)
          (((["x", "y"].take 50).drop (k * 10)).take 10) (k * 10)) ∧
    List.Chain' jitterAdj (pushContactDispatch ["x", "y"] (fun _ => true)
        (fun _ => 0)).trace :=
  pushContact_jitter_placement _ _ _ (fun _ => by norm_num)

/-- C7 counterexample: on a payload matching none of the known content
shapes (a lone `pollCreationMessage` field with no text or caption), the
classifier returns a classification tagged `"text"` carrying the
placeholder — not an `"unknown"`-tagged variant: no distinct Unknown
variant exists in `extractStatusContent` (part_000 lines 268–288 fall back
to `{type: 'text', ...}` or `{type: 'media', ...}`). -/
theorem extractStatusContent_unknown_counterexample :
    knownShape (JsValue.obj [("pollCreationMessage", JsValue.obj [])]) = false ∧
    (extractStatusContent
        (JsValue.obj [("pollCreationMessage", JsValue.obj [])])).type = "text" ∧
    (extractStatusContent
        (JsValue.obj [("pollCreationMessage", JsValue.obj [])])).type ≠ "unknown" := by
  refine ⟨?_, ?_, ?_⟩
  · decide
  · decide
  · decide

/-- C7 amended: for every object payload matching none of the known
content shapes, the classifier totally (it is a total function, never an
exception) returns a classification tagged `"text"` or `"media"` whose
content is a truthy value — the extracted text or caption field when one
is found, otherwise the non-empty placeholder string `"Status update"`. -/
theorem extractStatusContent_fallback_total (m : JsValue)
    (_hobj : isObj m = true) (hun : knownShape m = false) :
    ((extractStatusContent m).type = "text" ∨
      (extractStatusContent m).type = "media") ∧
    truthy (extractStatusContent m).content = true := by
  have h1 : truthy (jsGet m "conversation") = false := by
    revert hun
    unfold knownShape
    cases truthy (jsGet m "conversation") <;> simp
  have h2 : truthy (jsGet m "extendedTextMessage") = false := by
    revert hun
    unfold knownShape
    cases truthy (jsGet m "extendedTextMessage") <;> simp
  have h3 : truthy (jsGet m "imageMessage") = false := by
    revert hun
    unfold knownShape
    cases truthy (jsGet m "imageMessage") <;> simp
  have h4 : truthy (jsGet m "videoMessage") = false := by
    revert hun
    unfold knownShape
    cases truthy (jsGet m "videoMessage") <;> simp
  have h5 : truthy (jsGet m "audioMessage") = false := by
    revert hun
    unfold knownShape
    cases truthy (jsGet m "audioMessage") <;> simp
  have h6 : truthy (jsGet m "documentMessage") = false := by
    revert hun
    unfold knownShape
    cases truthy (jsGet m "documentMessage") <;> simp
  have h7 : truthy (jsGet m "stickerMessage") = false := by
    revert hun
    unfold knownShape
    cases truthy (jsGet m "stickerMessage") <;> simp
  have h8 : truthy (jsGet m "locationMessage") = false := by
    revert hun
    unfold knownShape
    cases truthy (jsGet m "locationMessage") <;> simp
  unfold extractStatusContent
  rw [h1, h2, h3, h4, h5, h6, h7, h8]
  simp only [Bool.false_eq_true, if_false]
  cases hk : jsKeys m with
  | nil => exact ⟨Or.inl rfl, rfl⟩
  | cons ft rest =>
    by_cases ho : isObj (jsGet m ft)
    · simp only [ho, if_true]
      by_cases ht : truthy (jsGet (jsGet m ft) "text")
      · simp only [ht, if_true]
        exact ⟨Or.inl trivial, trivial⟩
      · have htf : truthy (jsGet (jsGet m ft) "text") = false := by
          simpa using ht
        simp only [htf, Bool.false_eq_true, if_false]
        by_cases hc : truthy (jsGet (jsGet m ft) "caption")
        · simp only [hc, if_true]
          exact ⟨Or.inr trivial, trivial⟩
        · have hcf : truthy (jsGet (jsGet m ft) "caption") = false := by
            simpa using hc
          simp only [hcf, Bool.false_eq_true, if_false]
          exact ⟨Or.inl trivial, rfl⟩
    · have hof : isObj (jsGet m ft) = false := by
        simpa using ho
      simp only [hof, Bool.false_eq_true, if_false]
      exact ⟨Or.inl trivial, rfl⟩

/-- Witness for the amended C7 at a concrete unknown-shaped payload. -/
theorem extractStatusContent_fallback_total_witness :
    ((extractStatusContent
        (JsValue.obj [("reactionMessage", JsValue.obj [])])).type = "text" ∨
      (extractStatusContent
        (JsValue.obj [("reactionMessage", JsValue.obj [])])).type = "media") ∧
    truthy (extractStatusContent
        (JsValue.obj [("reactionMessage", JsValue.obj [])])).content = true :=
  extractStatusContent_fallback_total _ (by decide) (by decide)

/-- C8 counterexample: the dispatcher performs no deduplication — feeding
the dispatch core a recipient list containing the same id twice (both ids
survive the participant filter) produces two send attempts to that id, so
the dispatched list is not duplicate-free. -/
theorem pushContact_dedup_counterexample :
    attemptedRecipients (pushContactDispatch
        ["7@s.whatsapp.net", "7@s.whatsapp.net"] (fun _ => true)
        (fun _ => 0)).trace = ["7@s.whatsapp.net", "7@s.whatsapp.net"] ∧
    ¬ (attemptedRecipients (pushContactDispatch
        ["7@s.whatsapp.net", "7@s.whatsapp.net"] (fun _ => true)
        (fun _ => 0)).trace).Nodup := by
  constructor
  · decide
  · decide

/-- C8 amended: the list of recipients actually dispatched is exactly the
first 50 entries (`maxTotal`) of the filtered participant list, in
original order — a deterministic stable truncation fixed before any send
outcome can influence it (the same list results for every outcome oracle);
no deduplication is applied, so a duplicated id receives one attempt per
occurrence within the truncated range. -/
theorem pushContact_dispatch_order (participants : List String)
    (sendOk : Nat → Bool) (rnd : Nat → Nat) :
    attemptedRecipients (pushContactDispatch (filterParticipants participants)
        sendOk rnd).trace = (filterParticipants participants).take 50 :=
  pushContactDispatch_attempts _ sendOk rnd

/-- C10: starting from any store whose numbers are pairwise distinct,
`addContact` keeps the numbers pairwise distinct; with an existing number
it merges the new fields into the matching entry in place (count
unchanged), with a fresh number it appends exactly one entry, and in both
cases `exists(number)` holds afterwards. -/
theorem addContact_unique_numbers (contacts : List ContactData)
    (cd : ContactData) (hnodup : (contacts.map ContactData.number).Nodup) :
    ((addContact contacts cd).map ContactData.number).Nodup ∧
    contactExists (addContact contacts cd) cd.number = true ∧
    (contactExists contacts cd.number = true →
      (addContact contacts cd).length = contacts.length ∧
      ∃ i old, contacts[i]? = some old ∧ old.number = cd.number ∧
        addContact contacts cd = contacts.set i (mergeContact old cd)) ∧
    (contactExists contacts cd.number = false →
      addContact contacts cd = contacts ++ [cd] ∧
      (addContact contacts cd).length = contacts.length + 1) := by
  by_cases hex : contactExists contacts cd.number
  · obtain ⟨i, old, hget, hnum, heq⟩ := addContact_update cd contacts hex
    refine ⟨?_, ?_, fun _ => ⟨?_, i, old, hget, hnum, heq⟩, fun hf => ?_⟩
    · rw [addContact_map_number_of_exists cd contacts hex]
      exact hnodup
    · rw [contactExists_iff, addContact_map_number_of_exists cd contacts hex,
        ← contactExists_iff]
      exact hex
    · rw [heq, List.length_set]
    · rw [hex] at hf
      cases hf
  · have hf : contactExists contacts cd.number = false := by
      simpa using hex
    have happ := addContact_fresh cd contacts hf
    have hmem : cd.number ∉ contacts.map ContactData.number := by
      intro hm
      rw [← contactExists_iff] at hm
      rw [hm] at hf
      cases hf
    refine ⟨?_, ?_, fun ht => ?_, fun _ => ⟨happ, by rw [happ]; simp⟩⟩
    · rw [addContact_map_number_of_fresh cd contacts hf]
      rw [List.nodup_append]
      refine ⟨hnodup, List.nodup_singleton _, ?_⟩
      intro a ha hb
      rw [List.mem_singleton] at hb
      rw [hb] at ha
      exact hmem ha
    · rw [contactExists_iff, addContact_map_number_of_fresh cd contacts hf]
      simp
    · rw [ht] at hf
      cases hf

/-- Witness for C10 at a concrete two-entry store: one update of an
existing number and the append path exercised through the hypotheses. -/
theorem addContact_unique_numbers_witness :
    ((addContact [{ number := "111", name := some "Al" }]
        { number := "111", addedDate := some "d1" }).map
      ContactData.number).Nodup ∧
    contactExists (addContact [{ number := "111", name := some "Al" }]
        { number := "111", addedDate := some "d1" }) "111" = true ∧
    (addContact [{ number := "111", name := some "Al" }]
        { number := "111", addedDate := some "d1" }).length = 1 :=
  have h := addContact_unique_numbers
    [{ number := "111", name := some "Al" }]
    { number := "111", addedDate := some "d1" } (by decide)
  ⟨h.1, h.2.1, (h.2.2.1 (by decide)).1⟩

end WABot
